import Mathlib

/-!
# PolicyEndpoints reconciler

A shallow embedding of `controllers/policyendpoints_controller.go`.

The reconciler talks to three collaborators: the Kubernetes client (`Get`, `List`),
the eBPF client (`AttacheBPFProbes`, `UpdateEbpfMap`) and two `sync.Map` fields that the
eBPF client fills in through the pointers it was given at construction time.  The embedding
is explicit state passing over a `World` (the two maps plus everything that lives outside
the process) together with a chronological log of the collaborator calls that were made and
of what each of them returned.  Log lines (`r.Log.Info`) are not part of the model.
-/

namespace Controllers

/-! ## Data model -/

/-- The `types.NamespacedName` of a request. -/
structure NamespacedName where
  Namespace : String
  Name : String
  deriving DecidableEq, Repr

/-- The `ctrl.Request` handed over by the dispatcher. -/
structure Request where
  NamespacedName : NamespacedName
  deriving DecidableEq, Repr

/-- Modelled from the spec: the element type of `From` and `To` in `api/v1alpha1`, of which
the controller reads the `CIDR` field only; `string(cidr.CIDR)` is the identity on the
underlying string. -/
structure NetworkPeer where
  CIDR : String
  deriving DecidableEq, Repr

/-- Modelled from the spec: an ingress rule of `api/v1alpha1`, an ordered list of source
ranges. -/
structure IngressRule where
  From : List NetworkPeer
  deriving DecidableEq, Repr

/-- Modelled from the spec: an egress rule of `api/v1alpha1`, an ordered list of destination
ranges. -/
structure EgressRule where
  To : List NetworkPeer
  deriving DecidableEq, Repr

/-- Modelled from the spec: the `Spec` of a `PolicyEndpoints` object, as far as the controller
reads it. -/
structure PolicyEndpointsSpec where
  Ingress : List IngressRule
  Egress : List EgressRule
  deriving DecidableEq, Repr

/-- Modelled from the spec: the `PolicyEndpoints` resource of `api/v1alpha1`. -/
structure PolicyEndpoints where
  Spec : PolicyEndpointsSpec
  deriving DecidableEq, Repr

/-- The `Status` of a `corev1.Pod`, as far as the controller reads it.  A pod that has not
been scheduled yet has the empty string as `HostIP`. -/
structure PodStatus where
  HostIP : String
  deriving DecidableEq, Repr

/-- A `corev1.Pod`, as far as the controller reads it. -/
structure Pod where
  Namespace : String
  Name : String
  Status : PodStatus
  deriving DecidableEq, Repr

/-- A non-nil Go `error`.  The only distinction the controller draws, through
`client.IgnoreNotFound`, is whether `apierrors.IsNotFound` holds. -/
inductive GoError where
  | notFound (msg : String)
  | other (msg : String)
  deriving DecidableEq, Repr

/-- The `ctrl.Result` returned to the dispatcher. -/
structure Result where
  Requeue : Bool
  RequeueAfter : Nat
  deriving DecidableEq, Repr

/-- The zero value `ctrl.Result{}`. -/
def Result.empty : Result := ⟨false, 0⟩

/-- The function `client.IgnoreNotFound` of controller-runtime: nil for nil and for a not-found error, the
error itself otherwise. -/
def IgnoreNotFound : Option GoError → Option GoError
  | none => none
  | some (GoError.notFound _) => none
  | some (GoError.other msg) => some (GoError.other msg)

/-! ## CIDR extraction -/

/-- The method `deriveIngressAndEgressCIDRs`: two nested `for ... range` loops, each appending one string
to the slice it builds.  The third component is the returned error. -/
def deriveIngressAndEgressCIDRs (policyEndpoint : PolicyEndpoints) :
    List String × List String × Option GoError :=
  let ingressCIDRs : List String :=
    policyEndpoint.Spec.Ingress.foldl
      (fun acc cidrList => cidrList.From.foldl (fun acc cidr => acc ++ [cidr.CIDR]) acc) []
  let egressCIDRs : List String :=
    policyEndpoint.Spec.Egress.foldl
      (fun acc cidrList => cidrList.To.foldl (fun acc cidr => acc ++ [cidr.CIDR]) acc) []
  (ingressCIDRs, egressCIDRs, none)

/-! ## The world outside the reconciler and the collaborator calls -/

/-- The mutable state an invocation runs against.  `Pgm` is the type of the program handles
(`goebpf.BPFProgram`), `κ` is everything outside the reconciler: the cluster, the kernel, and
`bpfProgMap`, which only the eBPF client touches.

Modelled from the spec: the two `sync.Map` fields hold program handles only, so that the type
assertion `.(goebpf.BPFProgram)` after a successful `Load` always succeeds. -/
structure World (Pgm κ : Type) where
  policyEndpointIngressMap : List (String × Pgm)
  policyEndpointEgressMap : List (String × Pgm)
  outside : κ

/-- One interaction of the reconciler with a collaborator, with what it returned. -/
inductive Call (Pgm : Type) where
  | Get (key : NamespacedName) (err : Option GoError)
  | List (ns : String) (err : Option GoError)
  | AttacheBPFProbes (pod : Pod) (policyEndpointIdentifier : String) (ingress egress : Bool)
      (err : Option GoError)
  | LoadIngress (policyEndpointIdentifier : String) (value : Option Pgm)
  | LoadEgress (policyEndpointIdentifier : String) (value : Option Pgm)
  | UpdateEbpfMap (pgm : Pgm) (cidrs : List String) (err : Option GoError)
  deriving DecidableEq, Repr

/-- The part of `client.Client` the controller uses.  `Get` fills in the object or fails;
`List` fills in `Items` and returns an error, which the controller does not look at. -/
structure Client (Pgm κ : Type) where
  Get : NamespacedName → World Pgm κ → Except GoError PolicyEndpoints
  List : String → World Pgm κ → List Pod × Option GoError

/-- The part of `ebpf.BpfClient` the controller uses.  The client holds pointers to the
reconciler's maps, so each call may change the world, the two maps included.

Modelled from the spec: `UpdateEbpfMap` brings the table to the ranges it is given and does not
write into the slice it receives, so every call of one invocation sees the list that
`deriveIngressAndEgressCIDRs` returned. -/
structure BpfClient (Pgm κ : Type) where
  AttacheBPFProbes : Pod → String → Bool → Bool → World Pgm κ → Option GoError × World Pgm κ
  UpdateEbpfMap : Pgm → List String → World Pgm κ → Option GoError × World Pgm κ

/-- The immutable fields of `PolicyEndpointsReconciler`; `nodeIP` is set once by
`NewPolicyEndpointsReconciler` and is the empty string when the metadata lookup failed. -/
structure PolicyEndpointsReconciler (Pgm κ : Type) where
  K8sClient : Client Pgm κ
  nodeIP : String
  ebpfClient : BpfClient Pgm κ

/-- The state threaded through an invocation: the world and the calls made so far, oldest
first. -/
structure Exec (Pgm κ : Type) where
  world : World Pgm κ
  calls : List (Call Pgm)

/-- The method `sync.Map.Load`, on a map keyed by identifier. -/
def Load {Pgm : Type} (m : List (String × Pgm)) (key : String) : Option Pgm :=
  m.lookup key

/-! ## The reconciliation algorithm -/

/-- The `policyEndpointIdentifier` computed in `reconcilePolicyEndpoint`:
`req.NamespacedName.Namespace + req.NamespacedName.Name`. -/
def policyEndpointIdentifier (req : Request) : String :=
  req.NamespacedName.Namespace ++ req.NamespacedName.Name

/-- The ingress half of the loop body of `reconcilePolicyEndpoint`: load the handle and, if it
is there, push the ingress ranges. -/
def updateIngress {Pgm κ : Type} (r : PolicyEndpointsReconciler Pgm κ) (req : Request)
    (ingressCIDRs : List String) (st : Exec Pgm κ) : Exec Pgm κ :=
  let ingressValue := Load st.world.policyEndpointIngressMap (policyEndpointIdentifier req)
  match ingressValue with
  | some ingressBpfPgm =>
    let res := r.ebpfClient.UpdateEbpfMap ingressBpfPgm ingressCIDRs st.world
    { world := res.2
      calls := st.calls ++ [Call.LoadIngress (policyEndpointIdentifier req) ingressValue,
        Call.UpdateEbpfMap ingressBpfPgm ingressCIDRs res.1] }
  | none =>
    { st with calls := st.calls ++ [Call.LoadIngress (policyEndpointIdentifier req) none] }

/-- The egress half of the loop body of `reconcilePolicyEndpoint`. -/
def updateEgress {Pgm κ : Type} (r : PolicyEndpointsReconciler Pgm κ) (req : Request)
    (egressCIDRs : List String) (st : Exec Pgm κ) : Exec Pgm κ :=
  let egressValue := Load st.world.policyEndpointEgressMap (policyEndpointIdentifier req)
  match egressValue with
  | some egressBpfPgm =>
    let res := r.ebpfClient.UpdateEbpfMap egressBpfPgm egressCIDRs st.world
    { world := res.2
      calls := st.calls ++ [Call.LoadEgress (policyEndpointIdentifier req) egressValue,
        Call.UpdateEbpfMap egressBpfPgm egressCIDRs res.1] }
  | none =>
    { st with calls := st.calls ++ [Call.LoadEgress (policyEndpointIdentifier req) none] }

/-- The body of the `for _, pod := range targetPodList.Items` loop.  The error of
`AttacheBPFProbes` is logged and nothing else; the body has no `break`, `continue` or
`return`. -/
def reconcilePod {Pgm κ : Type} (r : PolicyEndpointsReconciler Pgm κ) (req : Request)
    (ingress egress : Bool) (ingressCIDRs egressCIDRs : List String)
    (st : Exec Pgm κ) (pod : Pod) : Exec Pgm κ :=
  if pod.Status.HostIP = r.nodeIP then
    let res := r.ebpfClient.AttacheBPFProbes pod (policyEndpointIdentifier req) ingress egress
      st.world
    let attached : Exec Pgm κ :=
      { world := res.2
        calls := st.calls ++
          [Call.AttacheBPFProbes pod (policyEndpointIdentifier req) ingress egress res.1] }
    updateEgress r req egressCIDRs (updateIngress r req ingressCIDRs attached)
  else
    st

/-- The method `reconcilePolicyEndpoint`: derive the ranges and the two flags, list the pods of the
request's namespace, run the loop body over every listed pod, return nil. -/
def reconcilePolicyEndpoint {Pgm κ : Type} (r : PolicyEndpointsReconciler Pgm κ)
    (policyEndpoint : PolicyEndpoints) (req : Request) (st : Exec Pgm κ) :
    Option GoError × Exec Pgm κ :=
  let derived := deriveIngressAndEgressCIDRs policyEndpoint
  let ingressCIDRs := derived.1
  let egressCIDRs := derived.2.1
  let ingress : Bool := if ingressCIDRs.length > 0 then true else false
  let egress : Bool := if egressCIDRs.length > 0 then true else false
  let listed := r.K8sClient.List req.NamespacedName.Namespace st.world
  let targetPodList := listed.1
  let st1 : Exec Pgm κ :=
    { st with calls := st.calls ++ [Call.List req.NamespacedName.Namespace listed.2] }
  (none, targetPodList.foldl (reconcilePod r req ingress egress ingressCIDRs egressCIDRs) st1)

/-- The unexported `reconcile`: fetch the object; on failure return the error through
`client.IgnoreNotFound`, otherwise hand over to `reconcilePolicyEndpoint`. -/
def reconcile {Pgm κ : Type} (r : PolicyEndpointsReconciler Pgm κ) (req : Request)
    (st : Exec Pgm κ) : Option GoError × Exec Pgm κ :=
  match r.K8sClient.Get req.NamespacedName st.world with
  | Except.error err =>
    (IgnoreNotFound (some err),
      { st with calls := st.calls ++ [Call.Get req.NamespacedName (some err)] })
  | Except.ok policyEndpoint =>
    reconcilePolicyEndpoint r policyEndpoint req
      { st with calls := st.calls ++ [Call.Get req.NamespacedName none] }

/-- The exported `Reconcile`: the result, the returned error, and the execution state. -/
def Reconcile {Pgm κ : Type} (r : PolicyEndpointsReconciler Pgm κ) (req : Request)
    (st : Exec Pgm κ) : Result × Option GoError × Exec Pgm κ :=
  let out := reconcile r req st
  match out.1 with
  | some _ => ({ Requeue := true, RequeueAfter := 0 }, none, out.2)
  | none => (Result.empty, none, out.2)

/-- An invocation starts with an empty call log. -/
def start {Pgm κ : Type} (w : World Pgm κ) : Exec Pgm κ := { world := w, calls := [] }

/-! ## Concrete collaborators for the examples -/

/-- A Kubernetes client that answers every `Get` with `object` and every `List` with the pods
of `pods` that live in the asked namespace. -/
def exampleClient {κ : Type} (object : Except GoError PolicyEndpoints) (pods : List Pod) :
    Client Nat κ where
  Get := fun _ _ => object
  List := fun ns _ => (pods.filter fun pod => pod.Namespace = ns, none)

/-- An eBPF client on a node where every program is already in place: attaching fails for the
pods named in `failing` and succeeds otherwise, updating a map succeeds, and neither changes
the world. -/
def exampleBpfClient (failing : List String) : BpfClient Nat Unit where
  AttacheBPFProbes := fun pod _ _ _ w =>
    (if pod.Name ∈ failing then some (GoError.other "attach failed") else none, w)
  UpdateEbpfMap := fun _ _ w => (none, w)

/-- A reconciler over the example collaborators. -/
def exampleReconciler (object : Except GoError PolicyEndpoints) (pods : List Pod)
    (nodeIP : String) (failing : List String) : PolicyEndpointsReconciler Nat Unit where
  K8sClient := exampleClient object pods
  nodeIP := nodeIP
  ebpfClient := exampleBpfClient failing

/-- An eBPF client whose calls are counted in the outside part of the world: the very first
call, an attach, fails, every later call succeeds, and the index is left alone. -/
def countingBpfClient : BpfClient Nat Nat where
  AttacheBPFProbes := fun _ _ _ _ w =>
    (if w.outside = 0 then some (GoError.other "not ready") else none,
      { w with outside := w.outside + 1 })
  UpdateEbpfMap := fun _ _ w => (none, { w with outside := w.outside + 1 })

/-- The policy of the scenario: one ingress rule with the range `10.0.0.0/24`, no egress
rule. -/
def scenarioPolicy : PolicyEndpoints := ⟨⟨[⟨[⟨"10.0.0.0/24"⟩]⟩], []⟩⟩

/-- The request for policy `P` in namespace `ns`. -/
def scenarioRequest : Request := ⟨⟨"ns", "P"⟩⟩

/-- Pod `A` of the scenario, on host `192.168.1.5`. -/
def podA : Pod := ⟨"ns", "A", ⟨"192.168.1.5"⟩⟩

/-- Pod `B` of the scenario, on host `192.168.1.6`. -/
def podB : Pod := ⟨"ns", "B", ⟨"192.168.1.6"⟩⟩

/-- A third pod on host `192.168.1.5`. -/
def podC : Pod := ⟨"ns", "C", ⟨"192.168.1.5"⟩⟩

/-- A fourth pod on host `192.168.1.5`. -/
def podD : Pod := ⟨"ns", "D", ⟨"192.168.1.5"⟩⟩

/-- A pod of namespace `ns` that has no host address yet. -/
def pendingPod : Pod := ⟨"ns", "pending", ⟨""⟩⟩

/-- A world in which the identifier `nsP` has ingress handle `11` and no egress handle. -/
def ingressOnlyWorld : World Nat Unit := ⟨[("nsP", 11)], [], ()⟩

/-- A world in which the identifier `nsP` has ingress handle `11` and egress handle `12`. -/
def attachedWorld : World Nat Unit := ⟨[("nsP", 11)], [("nsP", 12)], ()⟩

/-- The scenario's reconciler over the counting eBPF client. -/
def countingReconciler : PolicyEndpointsReconciler Nat Nat where
  K8sClient := exampleClient (Except.ok scenarioPolicy) [podA, podB]
  nodeIP := "192.168.1.5"
  ebpfClient := countingBpfClient

/-- A world of the counting client in which no call has been made yet and the identifier `nsP`
has ingress handle `11` and egress handle `12`. -/
def freshCountingWorld : World Nat Nat := ⟨[("nsP", 11)], [("nsP", 12)], 0⟩

/-! ## Projections of the call log -/

/-- The arguments of the `AttacheBPFProbes` calls of a log, in order. -/
def attachCalls {Pgm : Type} (calls : List (Call Pgm)) : List (Pod × String × Bool × Bool) :=
  calls.filterMap fun c =>
    match c with
    | Call.AttacheBPFProbes pod ident ingress egress _ => some (pod, ident, ingress, egress)
    | _ => none

/-- The arguments of the `UpdateEbpfMap` calls of a log, in order. -/
def updateCalls {Pgm : Type} (calls : List (Call Pgm)) : List (Pgm × List String) :=
  calls.filterMap fun c =>
    match c with
    | Call.UpdateEbpfMap pgm cidrs _ => some (pgm, cidrs)
    | _ => none

/-- The namespaces of the `List` calls of a log, in order. -/
def listCalls {Pgm : Type} (calls : List (Call Pgm)) : List String :=
  calls.filterMap fun c =>
    match c with
    | Call.List ns _ => some ns
    | _ => none

/-- The `AttacheBPFProbes` calls of a log that returned an error. -/
def failedAttachCalls {Pgm : Type} (calls : List (Call Pgm)) : List (Call Pgm) :=
  calls.filter fun c =>
    match c with
    | Call.AttacheBPFProbes _ _ _ _ (some _) => true
    | _ => false

/-! ## What one selected pod is owed

The next three definitions are the specification side of the loop: they are written from the
description of step 4 of the orchestrator, not from the code, and the theorems below compare
the code with them. -/

/-- What the collaborators answered while one pod was processed. -/
structure PodOutcome (Pgm : Type) where
  attachErr : Option GoError
  ingressValue : Option Pgm
  ingressErr : Option GoError
  egressValue : Option Pgm
  egressErr : Option GoError

/-- Specification: a present handle gets one `UpdateEbpfMap` call with the whole list, an
absent handle gets none. -/
def specHandleUpdate {Pgm : Type} (value : Option Pgm) (cidrs : List String)
    (err : Option GoError) : List (Call Pgm) :=
  match value with
  | some pgm => [Call.UpdateEbpfMap pgm cidrs err]
  | none => []

/-- Specification: the calls one selected pod receives: the attach call, the ingress lookup
and its update, the egress lookup and its update. -/
def specPodBlock {Pgm : Type} (ident : String) (ingress egress : Bool)
    (ingressCIDRs egressCIDRs : List String) (pod : Pod) (o : PodOutcome Pgm) :
    List (Call Pgm) :=
  [Call.AttacheBPFProbes pod ident ingress egress o.attachErr,
    Call.LoadIngress ident o.ingressValue]
    ++ specHandleUpdate o.ingressValue ingressCIDRs o.ingressErr
    ++ [Call.LoadEgress ident o.egressValue]
    ++ specHandleUpdate o.egressValue egressCIDRs o.egressErr

/-- Specification: what one selected pod is owed in world `w`, read off the index itself.  After
the attach call the ingress map is searched for the identifier, and a handle found there gets
the ingress list; after that the egress map is searched, and a handle found there gets the
egress list.  The result is the answers of the collaborators and the world they leave. -/
def specRunPod {Pgm κ : Type} (r : PolicyEndpointsReconciler Pgm κ) (ident : String)
    (ingress egress : Bool) (ingressCIDRs egressCIDRs : List String) (w : World Pgm κ)
    (pod : Pod) : PodOutcome Pgm × World Pgm κ :=
  let attached := r.ebpfClient.AttacheBPFProbes pod ident ingress egress w
  let ingressHandle := attached.2.policyEndpointIngressMap.lookup ident
  let afterIngress : Option GoError × World Pgm κ :=
    match ingressHandle with
    | some pgm => r.ebpfClient.UpdateEbpfMap pgm ingressCIDRs attached.2
    | none => (none, attached.2)
  let egressHandle := afterIngress.2.policyEndpointEgressMap.lookup ident
  let afterEgress : Option GoError × World Pgm κ :=
    match egressHandle with
    | some pgm => r.ebpfClient.UpdateEbpfMap pgm egressCIDRs afterIngress.2
    | none => (none, afterIngress.2)
  (⟨attached.1, ingressHandle, afterIngress.1, egressHandle, afterEgress.1⟩, afterEgress.2)

/-- Specification: the outcomes owed to a list of selected pods, each pod meeting the world
its predecessor left. -/
def specOutcomes {Pgm κ : Type} (r : PolicyEndpointsReconciler Pgm κ) (ident : String)
    (ingress egress : Bool) (ingressCIDRs egressCIDRs : List String) :
    World Pgm κ → List Pod → List (PodOutcome Pgm)
  | _, [] => []
  | w, pod :: pods =>
    (specRunPod r ident ingress egress ingressCIDRs egressCIDRs w pod).1 ::
      specOutcomes r ident ingress egress ingressCIDRs egressCIDRs
        (specRunPod r ident ingress egress ingressCIDRs egressCIDRs w pod).2 pods

theorem foldl_append_singleton {α β : Type} (f : α → β) (l : List α) (acc : List β) :
    l.foldl (fun acc a => acc ++ [f a]) acc = acc ++ l.map f := by
  induction l generalizing acc with
  | nil => simp
  | cons a l ih => simp [ih]

theorem foldl_foldl_append_singleton {α β γ : Type} (g : α → List β) (f : β → γ)
    (l : List α) (acc : List γ) :
    l.foldl (fun acc a => (g a).foldl (fun acc b => acc ++ [f b]) acc) acc
      = acc ++ (l.map fun a => (g a).map f).flatten := by
  induction l generalizing acc with
  | nil => simp
  | cons a l ih =>
    rw [List.foldl_cons, ih, foldl_append_singleton]
    simp

/-- C1: for every specification, `deriveIngressAndEgressCIDRs` returns as ingress list the
concatenation, rule by rule and within a rule entry by entry, of the CIDR strings of all `From`
entries, as egress list the same concatenation over the `To` entries of the egress rules, and
a nil error.  Nothing is dropped, reordered or deduplicated. -/
theorem deriveIngressAndEgressCIDRs_flatten (policyEndpoint : PolicyEndpoints) :
    deriveIngressAndEgressCIDRs policyEndpoint =
      ((policyEndpoint.Spec.Ingress.map fun rule => rule.From.map NetworkPeer.CIDR).flatten,
       (policyEndpoint.Spec.Egress.map fun rule => rule.To.map NetworkPeer.CIDR).flatten,
       none) := by
  simp [deriveIngressAndEgressCIDRs, foldl_foldl_append_singleton]

/-! ## The policy identifier -/

/-- C2: the identifier does not determine the request.  The requests `("ab", "c")` and
`("a", "bc")` are different and get the same identifier `"abc"`. -/
theorem policyEndpointIdentifier_collision :
    policyEndpointIdentifier ⟨⟨"ab", "c"⟩⟩ = policyEndpointIdentifier ⟨⟨"a", "bc"⟩⟩ ∧
      (⟨⟨"ab", "c"⟩⟩ : Request) ≠ ⟨⟨"a", "bc"⟩⟩ := by
  constructor
  · decide
  · decide

/-! ## The loop over the listed pods -/

theorem updateIngress_calls {Pgm κ : Type} (r : PolicyEndpointsReconciler Pgm κ) (req : Request)
    (ingressCIDRs : List String) (st : Exec Pgm κ) :
    ∃ err, (updateIngress r req ingressCIDRs st).calls = st.calls ++
      (Call.LoadIngress (policyEndpointIdentifier req)
          (Load st.world.policyEndpointIngressMap (policyEndpointIdentifier req)) ::
        specHandleUpdate (Load st.world.policyEndpointIngressMap (policyEndpointIdentifier req))
          ingressCIDRs err) := by
  unfold updateIngress
  cases h : Load st.world.policyEndpointIngressMap (policyEndpointIdentifier req) with
  | none => exact ⟨none, by simp [specHandleUpdate]⟩
  | some pgm =>
    exact ⟨(r.ebpfClient.UpdateEbpfMap pgm ingressCIDRs st.world).1, by simp [specHandleUpdate]⟩

theorem updateEgress_calls {Pgm κ : Type} (r : PolicyEndpointsReconciler Pgm κ) (req : Request)
    (egressCIDRs : List String) (st : Exec Pgm κ) :
    ∃ err, (updateEgress r req egressCIDRs st).calls = st.calls ++
      (Call.LoadEgress (policyEndpointIdentifier req)
          (Load st.world.policyEndpointEgressMap (policyEndpointIdentifier req)) ::
        specHandleUpdate (Load st.world.policyEndpointEgressMap (policyEndpointIdentifier req))
          egressCIDRs err) := by
  unfold updateEgress
  cases h : Load st.world.policyEndpointEgressMap (policyEndpointIdentifier req) with
  | none => exact ⟨none, by simp [specHandleUpdate]⟩
  | some pgm =>
    exact ⟨(r.ebpfClient.UpdateEbpfMap pgm egressCIDRs st.world).1, by simp [specHandleUpdate]⟩

theorem reconcilePod_skipped {Pgm κ : Type} (r : PolicyEndpointsReconciler Pgm κ) (req : Request)
    (ingress egress : Bool) (ingressCIDRs egressCIDRs : List String) (st : Exec Pgm κ)
    (pod : Pod) (h : ¬ pod.Status.HostIP = r.nodeIP) :
    reconcilePod r req ingress egress ingressCIDRs egressCIDRs st pod = st := by
  simp [reconcilePod, h]

theorem reconcilePod_selected {Pgm κ : Type} (r : PolicyEndpointsReconciler Pgm κ) (req : Request)
    (ingress egress : Bool) (ingressCIDRs egressCIDRs : List String) (st : Exec Pgm κ)
    (pod : Pod) (h : pod.Status.HostIP = r.nodeIP) :
    ∃ o : PodOutcome Pgm,
      (reconcilePod r req ingress egress ingressCIDRs egressCIDRs st pod).calls = st.calls ++
        specPodBlock (policyEndpointIdentifier req) ingress egress ingressCIDRs egressCIDRs
          pod o := by
  simp only [reconcilePod, h, if_true]
  generalize r.ebpfClient.AttacheBPFProbes pod (policyEndpointIdentifier req) ingress egress
    st.world = res
  generalize hatt : (⟨res.2, st.calls ++ [Call.AttacheBPFProbes pod
    (policyEndpointIdentifier req) ingress egress res.1]⟩ : Exec Pgm κ) = attached
  have hcalls : attached.calls = st.calls ++ [Call.AttacheBPFProbes pod
      (policyEndpointIdentifier req) ingress egress res.1] := by rw [← hatt]
  obtain ⟨e1, h1⟩ := updateIngress_calls r req ingressCIDRs attached
  obtain ⟨e2, h2⟩ := updateEgress_calls r req egressCIDRs
    (updateIngress r req ingressCIDRs attached)
  refine ⟨⟨res.1, Load attached.world.policyEndpointIngressMap (policyEndpointIdentifier req),
    e1, Load (updateIngress r req ingressCIDRs attached).world.policyEndpointEgressMap
      (policyEndpointIdentifier req), e2⟩, ?_⟩
  rw [h2, h1, hcalls]
  simp [specPodBlock]

/-- The loop makes, for every listed pod whose host address is the node address and in list
order, the calls of one `specPodBlock`, and nothing else. -/
theorem loop_calls {Pgm κ : Type} (r : PolicyEndpointsReconciler Pgm κ) (req : Request)
    (ingress egress : Bool) (ingressCIDRs egressCIDRs : List String) (pods : List Pod)
    (st : Exec Pgm κ) :
    ∃ outcomes : List (PodOutcome Pgm),
      outcomes.length = (pods.filter fun pod => pod.Status.HostIP = r.nodeIP).length ∧
      (pods.foldl (reconcilePod r req ingress egress ingressCIDRs egressCIDRs) st).calls =
        st.calls ++ (List.zipWith
          (specPodBlock (policyEndpointIdentifier req) ingress egress ingressCIDRs egressCIDRs)
          (pods.filter fun pod => pod.Status.HostIP = r.nodeIP) outcomes).flatten := by
  induction pods generalizing st with
  | nil => exact ⟨[], by simp⟩
  | cons pod pods ih =>
    by_cases h : pod.Status.HostIP = r.nodeIP
    · obtain ⟨o, ho⟩ := reconcilePod_selected r req ingress egress ingressCIDRs egressCIDRs st
        pod h
      obtain ⟨os, hlen, hos⟩ :=
        ih (reconcilePod r req ingress egress ingressCIDRs egressCIDRs st pod)
      refine ⟨o :: os, ?_, ?_⟩
      · simp [h, hlen]
      · rw [List.foldl_cons, hos, ho]
        simp [h]
    · obtain ⟨os, hlen, hos⟩ := ih st
      refine ⟨os, ?_, ?_⟩
      · simp [h, hlen]
      · rw [List.foldl_cons, reconcilePod_skipped r req ingress egress ingressCIDRs egressCIDRs
          st pod h, hos]
        simp [h]

/-- The calls of `reconcilePolicyEndpoint`: one `List` call, then one block per listed pod
whose host address is the node address. -/
theorem reconcilePolicyEndpoint_calls {Pgm κ : Type} (r : PolicyEndpointsReconciler Pgm κ)
    (policyEndpoint : PolicyEndpoints) (req : Request) (st : Exec Pgm κ) :
    ∃ outcomes : List (PodOutcome Pgm),
      outcomes.length = ((r.K8sClient.List req.NamespacedName.Namespace st.world).1.filter
        fun pod => pod.Status.HostIP = r.nodeIP).length ∧
      (reconcilePolicyEndpoint r policyEndpoint req st).2.calls =
        st.calls ++ Call.List req.NamespacedName.Namespace
            (r.K8sClient.List req.NamespacedName.Namespace st.world).2 ::
          (List.zipWith
            (specPodBlock (policyEndpointIdentifier req)
              (decide ((deriveIngressAndEgressCIDRs policyEndpoint).1 ≠ []))
              (decide ((deriveIngressAndEgressCIDRs policyEndpoint).2.1 ≠ []))
              (deriveIngressAndEgressCIDRs policyEndpoint).1
              (deriveIngressAndEgressCIDRs policyEndpoint).2.1)
            ((r.K8sClient.List req.NamespacedName.Namespace st.world).1.filter
              fun pod => pod.Status.HostIP = r.nodeIP) outcomes).flatten := by
  have hflag : ∀ l : List String,
      (if l.length > 0 then true else false) = decide (l ≠ []) := by
    intro l
    cases l <;> simp
  obtain ⟨os, hlen, hos⟩ := loop_calls r req
    (decide ((deriveIngressAndEgressCIDRs policyEndpoint).1 ≠ []))
    (decide ((deriveIngressAndEgressCIDRs policyEndpoint).2.1 ≠ []))
    (deriveIngressAndEgressCIDRs policyEndpoint).1
    (deriveIngressAndEgressCIDRs policyEndpoint).2.1
    (r.K8sClient.List req.NamespacedName.Namespace st.world).1
    { st with calls := st.calls ++ [Call.List req.NamespacedName.Namespace
        (r.K8sClient.List req.NamespacedName.Namespace st.world).2] }
  refine ⟨os, hlen, ?_⟩
  simp only [reconcilePolicyEndpoint, hflag]
  rw [hos]
  simp

theorem attachCalls_append {Pgm : Type} (xs ys : List (Call Pgm)) :
    attachCalls (xs ++ ys) = attachCalls xs ++ attachCalls ys := by
  simp [attachCalls]

theorem updateCalls_append {Pgm : Type} (xs ys : List (Call Pgm)) :
    updateCalls (xs ++ ys) = updateCalls xs ++ updateCalls ys := by
  simp [updateCalls]

theorem failedAttachCalls_append {Pgm : Type} (xs ys : List (Call Pgm)) :
    failedAttachCalls (xs ++ ys) = failedAttachCalls xs ++ failedAttachCalls ys := by
  simp [failedAttachCalls]

theorem attachCalls_specPodBlock {Pgm : Type} (ident : String) (ingress egress : Bool)
    (ingressCIDRs egressCIDRs : List String) (pod : Pod) (o : PodOutcome Pgm) :
    attachCalls (specPodBlock ident ingress egress ingressCIDRs egressCIDRs pod o) =
      [(pod, ident, ingress, egress)] := by
  cases hi : o.ingressValue <;> cases he : o.egressValue <;>
    simp [attachCalls, specPodBlock, specHandleUpdate, hi, he]

theorem failedAttachCalls_specPodBlock {Pgm : Type} (ident : String) (ingress egress : Bool)
    (ingressCIDRs egressCIDRs : List String) (pod : Pod) (o : PodOutcome Pgm) :
    (failedAttachCalls (specPodBlock ident ingress egress ingressCIDRs egressCIDRs pod o)).length
      = if o.attachErr.isSome then 1 else 0 := by
  cases hi : o.ingressValue <;> cases he : o.egressValue <;> cases ha : o.attachErr <;>
    simp [failedAttachCalls, specPodBlock, specHandleUpdate, hi, he, ha]

theorem attachCalls_blocks {Pgm : Type} (ident : String) (ingress egress : Bool)
    (ingressCIDRs egressCIDRs : List String) (pods : List Pod)
    (outcomes : List (PodOutcome Pgm)) (hlen : outcomes.length = pods.length) :
    attachCalls (List.zipWith (specPodBlock ident ingress egress ingressCIDRs egressCIDRs)
      pods outcomes).flatten = pods.map fun pod => (pod, ident, ingress, egress) := by
  induction pods generalizing outcomes with
  | nil => simp [attachCalls]
  | cons pod pods ih =>
    cases outcomes with
    | nil => simp at hlen
    | cons o os =>
      have hos : os.length = pods.length := by simpa using hlen
      simp only [List.zipWith_cons_cons, List.flatten_cons, attachCalls_append,
        attachCalls_specPodBlock, ih os hos, List.map_cons, List.singleton_append]

theorem failedAttachCalls_blocks {Pgm : Type} (ident : String) (ingress egress : Bool)
    (ingressCIDRs egressCIDRs : List String) (pods : List Pod)
    (outcomes : List (PodOutcome Pgm)) (hlen : outcomes.length = pods.length) :
    (failedAttachCalls (List.zipWith
      (specPodBlock ident ingress egress ingressCIDRs egressCIDRs) pods outcomes).flatten).length
      = (outcomes.filter fun o => o.attachErr.isSome).length := by
  induction pods generalizing outcomes with
  | nil =>
    have : outcomes = [] := List.length_eq_zero.mp (by simpa using hlen)
    subst this
    simp [failedAttachCalls]
  | cons pod pods ih =>
    cases outcomes with
    | nil => simp at hlen
    | cons o os =>
      have hos : os.length = pods.length := by simpa using hlen
      simp only [List.zipWith_cons_cons, List.flatten_cons, failedAttachCalls_append,
        List.length_append, failedAttachCalls_specPodBlock, ih os hos, List.filter_cons]
      cases o.attachErr.isSome <;> simp
      omega

/-- The attach calls of `reconcilePolicyEndpoint`, whatever log it starts from. -/
theorem attachCalls_reconcilePolicyEndpoint {Pgm κ : Type}
    (r : PolicyEndpointsReconciler Pgm κ) (policyEndpoint : PolicyEndpoints) (req : Request)
    (st : Exec Pgm κ) :
    attachCalls (reconcilePolicyEndpoint r policyEndpoint req st).2.calls =
      attachCalls st.calls ++
        ((r.K8sClient.List req.NamespacedName.Namespace st.world).1.filter
          fun pod => pod.Status.HostIP = r.nodeIP).map fun pod =>
            (pod, policyEndpointIdentifier req,
              decide ((deriveIngressAndEgressCIDRs policyEndpoint).1 ≠ []),
              decide ((deriveIngressAndEgressCIDRs policyEndpoint).2.1 ≠ [])) := by
  obtain ⟨os, hlen, hos⟩ := reconcilePolicyEndpoint_calls r policyEndpoint req st
  rw [hos, attachCalls_append, ← List.singleton_append, attachCalls_append,
    attachCalls_blocks _ _ _ _ _ _ os hlen]
  simp [attachCalls]

/-! ## Pod selection -/

/-- C4: for every pod list returned for the request's namespace and every node address, the
pods passed to `AttacheBPFProbes` during one `reconcilePolicyEndpoint` invocation are, in list
order and once per occurrence, the listed pods whose `Status.HostIP` equals the node
address. -/
theorem attached_pods_eq_filter {Pgm κ : Type} (r : PolicyEndpointsReconciler Pgm κ)
    (policyEndpoint : PolicyEndpoints) (req : Request) (w : World Pgm κ) :
    (attachCalls (reconcilePolicyEndpoint r policyEndpoint req (start w)).2.calls).map
        (fun c => c.1) =
      (r.K8sClient.List req.NamespacedName.Namespace w).1.filter
        fun pod => pod.Status.HostIP = r.nodeIP := by
  rw [attachCalls_reconcilePolicyEndpoint]
  simp [start, attachCalls, Function.comp_def]

/-- C3, as amended: with an empty node address, and a pod list in which every pod has a host
address, `reconcilePolicyEndpoint` lists the pods and makes no further call: no
`AttacheBPFProbes` and no `UpdateEbpfMap`. -/
theorem empty_nodeIP_selects_no_scheduled_pod {Pgm κ : Type}
    (r : PolicyEndpointsReconciler Pgm κ) (policyEndpoint : PolicyEndpoints) (req : Request)
    (w : World Pgm κ) (hnode : r.nodeIP = "")
    (hpods : ∀ pod ∈ (r.K8sClient.List req.NamespacedName.Namespace w).1,
      pod.Status.HostIP ≠ "") :
    (reconcilePolicyEndpoint r policyEndpoint req (start w)).2.calls =
        [Call.List req.NamespacedName.Namespace
          (r.K8sClient.List req.NamespacedName.Namespace w).2] ∧
      attachCalls (reconcilePolicyEndpoint r policyEndpoint req (start w)).2.calls = [] ∧
      updateCalls (reconcilePolicyEndpoint r policyEndpoint req (start w)).2.calls = [] := by
  have hsel : ((r.K8sClient.List req.NamespacedName.Namespace w).1.filter
      fun pod => pod.Status.HostIP = r.nodeIP) = [] := by
    rw [List.filter_eq_nil_iff]
    intro pod hpod
    simpa [hnode] using hpods pod hpod
  obtain ⟨os, -, hos⟩ := reconcilePolicyEndpoint_calls r policyEndpoint req (start w)
  have hcalls : (reconcilePolicyEndpoint r policyEndpoint req (start w)).2.calls =
      [Call.List req.NamespacedName.Namespace
        (r.K8sClient.List req.NamespacedName.Namespace w).2] := by
    rw [hos]
    simp only [start] at hsel ⊢
    rw [hsel]
    simp
  refine ⟨hcalls, ?_, ?_⟩
  · rw [hcalls]; simp [attachCalls]
  · rw [hcalls]; simp [updateCalls]

/-- C3, witness: an empty node address and the scheduled pods `A` and `B`. -/
theorem empty_nodeIP_selects_no_scheduled_pod_witness :
    (reconcilePolicyEndpoint
        (exampleReconciler (Except.ok scenarioPolicy) [podA, podB] "" []) scenarioPolicy
        scenarioRequest (start attachedWorld)).2.calls = [Call.List "ns" none] ∧
      attachCalls (reconcilePolicyEndpoint
        (exampleReconciler (Except.ok scenarioPolicy) [podA, podB] "" []) scenarioPolicy
        scenarioRequest (start attachedWorld)).2.calls = [] ∧
      updateCalls (reconcilePolicyEndpoint
        (exampleReconciler (Except.ok scenarioPolicy) [podA, podB] "" []) scenarioPolicy
        scenarioRequest (start attachedWorld)).2.calls = [] :=
  empty_nodeIP_selects_no_scheduled_pod
    (exampleReconciler (Except.ok scenarioPolicy) [podA, podB] "" []) scenarioPolicy
    scenarioRequest attachedWorld rfl (by decide)

/-- C3, counterexample: with an empty node address a listed pod that has no host address yet
is selected: it gets an attach call and, the handles being there, both updates. -/
theorem empty_nodeIP_selects_pending_pod :
    (reconcilePolicyEndpoint
        (exampleReconciler (Except.ok scenarioPolicy) [pendingPod] "" []) scenarioPolicy
        scenarioRequest (start attachedWorld)).2.calls =
      [Call.List "ns" none,
        Call.AttacheBPFProbes pendingPod "nsP" true false none,
        Call.LoadIngress "nsP" (some 11),
        Call.UpdateEbpfMap 11 ["10.0.0.0/24"] none,
        Call.LoadEgress "nsP" (some 12),
        Call.UpdateEbpfMap 12 [] none] := by
  decide

/-! ## The direction flags -/

theorem derive_of_empty_rules (m n : Nat) :
    deriveIngressAndEgressCIDRs ⟨⟨List.replicate m ⟨[]⟩, List.replicate n ⟨[]⟩⟩⟩ =
      ([], [], none) := by
  simp [deriveIngressAndEgressCIDRs, foldl_foldl_append_singleton]

/-- C10: the attach calls go to every matched pod, with the ingress flag true exactly when the
extracted ingress list is non-empty and the egress flag true exactly when the extracted egress
list is non-empty.  For a specification with `m` ingress rules and `n` egress rules that all
carry an empty range list (the empty specification is `m = n = 0`) both flags are false and
every matched pod still gets its attach call. -/
theorem attach_flags {Pgm κ : Type} (r : PolicyEndpointsReconciler Pgm κ)
    (policyEndpoint : PolicyEndpoints) (req : Request) (w : World Pgm κ) (m n : Nat) :
    attachCalls (reconcilePolicyEndpoint r policyEndpoint req (start w)).2.calls =
        ((r.K8sClient.List req.NamespacedName.Namespace w).1.filter
          fun pod => pod.Status.HostIP = r.nodeIP).map (fun pod =>
            (pod, policyEndpointIdentifier req,
              decide ((deriveIngressAndEgressCIDRs policyEndpoint).1 ≠ []),
              decide ((deriveIngressAndEgressCIDRs policyEndpoint).2.1 ≠ []))) ∧
      attachCalls (reconcilePolicyEndpoint r
          ⟨⟨List.replicate m ⟨[]⟩, List.replicate n ⟨[]⟩⟩⟩ req (start w)).2.calls =
        ((r.K8sClient.List req.NamespacedName.Namespace w).1.filter
          fun pod => pod.Status.HostIP = r.nodeIP).map (fun pod =>
            (pod, policyEndpointIdentifier req, false, false)) := by
  constructor
  · rw [attachCalls_reconcilePolicyEndpoint]
    simp [start, attachCalls]
  · rw [attachCalls_reconcilePolicyEndpoint, derive_of_empty_rules]
    simp [start, attachCalls]

/-! ## Failures inside the loop -/

theorem specOutcomes_length {Pgm κ : Type} (r : PolicyEndpointsReconciler Pgm κ)
    (ident : String) (ingress egress : Bool) (ingressCIDRs egressCIDRs : List String)
    (w : World Pgm κ) (pods : List Pod) :
    (specOutcomes r ident ingress egress ingressCIDRs egressCIDRs w pods).length =
      pods.length := by
  induction pods generalizing w with
  | nil => rfl
  | cons pod pods ih => simp [specOutcomes, ih]

/-- The loop body on a selected pod makes the calls of that pod's block, with the handles the
index holds at the moment of each lookup, and leaves the world of `specRunPod`. -/
theorem reconcilePod_selected_spec {Pgm κ : Type} (r : PolicyEndpointsReconciler Pgm κ)
    (req : Request) (ingress egress : Bool) (ingressCIDRs egressCIDRs : List String)
    (st : Exec Pgm κ) (pod : Pod) (h : pod.Status.HostIP = r.nodeIP) :
    reconcilePod r req ingress egress ingressCIDRs egressCIDRs st pod =
      ⟨(specRunPod r (policyEndpointIdentifier req) ingress egress ingressCIDRs egressCIDRs
          st.world pod).2,
        st.calls ++ specPodBlock (policyEndpointIdentifier req) ingress egress ingressCIDRs
          egressCIDRs pod
          (specRunPod r (policyEndpointIdentifier req) ingress egress ingressCIDRs egressCIDRs
            st.world pod).1⟩ := by
  simp only [reconcilePod, h, if_true, specRunPod]
  generalize r.ebpfClient.AttacheBPFProbes pod (policyEndpointIdentifier req) ingress egress
    st.world = res
  cases hi : res.2.policyEndpointIngressMap.lookup (policyEndpointIdentifier req) with
  | none =>
    cases he : res.2.policyEndpointEgressMap.lookup (policyEndpointIdentifier req) with
    | none => simp [updateEgress, updateIngress, Load, hi, he, specPodBlock, specHandleUpdate]
    | some pgm =>
      simp [updateEgress, updateIngress, Load, hi, he, specPodBlock, specHandleUpdate]
  | some pgm =>
    cases he : (r.ebpfClient.UpdateEbpfMap pgm ingressCIDRs
        res.2).2.policyEndpointEgressMap.lookup (policyEndpointIdentifier req) with
    | none => simp [updateEgress, updateIngress, Load, hi, he, specPodBlock, specHandleUpdate]
    | some pgm2 =>
      simp [updateEgress, updateIngress, Load, hi, he, specPodBlock, specHandleUpdate]

/-- The calls of the loop are the blocks of the selected pods, with the outcomes read off the
index as it stands at each lookup. -/
theorem loop_calls_spec {Pgm κ : Type} (r : PolicyEndpointsReconciler Pgm κ) (req : Request)
    (ingress egress : Bool) (ingressCIDRs egressCIDRs : List String) (pods : List Pod)
    (st : Exec Pgm κ) :
    (pods.foldl (reconcilePod r req ingress egress ingressCIDRs egressCIDRs) st).calls =
      st.calls ++ (List.zipWith
        (specPodBlock (policyEndpointIdentifier req) ingress egress ingressCIDRs egressCIDRs)
        (pods.filter fun pod => pod.Status.HostIP = r.nodeIP)
        (specOutcomes r (policyEndpointIdentifier req) ingress egress ingressCIDRs egressCIDRs
          st.world (pods.filter fun pod => pod.Status.HostIP = r.nodeIP))).flatten := by
  induction pods generalizing st with
  | nil => simp [specOutcomes]
  | cons pod pods ih =>
    by_cases h : pod.Status.HostIP = r.nodeIP
    · rw [List.foldl_cons, ih, reconcilePod_selected_spec r req ingress egress ingressCIDRs
        egressCIDRs st pod h]
      simp [h, specOutcomes]
    · rw [List.foldl_cons, reconcilePod_skipped r req ingress egress ingressCIDRs egressCIDRs
        st pod h, ih]
      simp [h]

/-- C7: if exactly one `AttacheBPFProbes` call of an invocation fails, the loop is not cut
short.  After the `List` call the log consists of one block per selected pod, in list order:
the attach call, then the search of the ingress map of the world that attach left and, when
the identifier has a handle there, `UpdateEbpfMap` on that handle with the whole ingress list,
then the same for the egress map and the whole egress list.  Exactly one of these blocks
carries the failed attach; each of the others, and the failing one too, is complete. -/
theorem attach_failure_does_not_shorten_loop {Pgm κ : Type}
    (r : PolicyEndpointsReconciler Pgm κ) (policyEndpoint : PolicyEndpoints) (req : Request)
    (w : World Pgm κ)
    (hfail : (failedAttachCalls
      (reconcilePolicyEndpoint r policyEndpoint req (start w)).2.calls).length = 1) :
    let selected := (r.K8sClient.List req.NamespacedName.Namespace w).1.filter
      fun pod => pod.Status.HostIP = r.nodeIP
    let ingressCIDRs := (deriveIngressAndEgressCIDRs policyEndpoint).1
    let egressCIDRs := (deriveIngressAndEgressCIDRs policyEndpoint).2.1
    let outcomes := specOutcomes r (policyEndpointIdentifier req)
      (decide (ingressCIDRs ≠ [])) (decide (egressCIDRs ≠ [])) ingressCIDRs egressCIDRs w
      selected
    outcomes.length = selected.length ∧
      (outcomes.filter fun o => o.attachErr.isSome).length = 1 ∧
      (reconcilePolicyEndpoint r policyEndpoint req (start w)).2.calls =
        Call.List req.NamespacedName.Namespace
            (r.K8sClient.List req.NamespacedName.Namespace w).2 ::
          (List.zipWith
            (specPodBlock (policyEndpointIdentifier req)
              (decide (ingressCIDRs ≠ [])) (decide (egressCIDRs ≠ []))
              ingressCIDRs egressCIDRs)
            selected outcomes).flatten := by
  intro selected ingressCIDRs egressCIDRs outcomes
  have hflag : ∀ l : List String,
      (if l.length > 0 then true else false) = decide (l ≠ []) := by
    intro l
    cases l <;> simp
  have hlen : outcomes.length = selected.length := specOutcomes_length _ _ _ _ _ _ _ _
  have hcalls : (reconcilePolicyEndpoint r policyEndpoint req (start w)).2.calls =
      Call.List req.NamespacedName.Namespace
          (r.K8sClient.List req.NamespacedName.Namespace w).2 ::
        (List.zipWith
          (specPodBlock (policyEndpointIdentifier req)
            (decide (ingressCIDRs ≠ [])) (decide (egressCIDRs ≠ []))
            ingressCIDRs egressCIDRs)
          selected outcomes).flatten := by
    simp only [reconcilePolicyEndpoint, hflag, loop_calls_spec, start]
    simp [selected, ingressCIDRs, egressCIDRs, outcomes]
  refine ⟨hlen, ?_, hcalls⟩
  rw [hcalls, ← List.singleton_append, failedAttachCalls_append, List.length_append,
    failedAttachCalls_blocks _ _ _ _ _ _ outcomes hlen] at hfail
  simpa [failedAttachCalls] using hfail

/-- C7, witness: pods `A`, `C`, `D` are on the node, the index holds ingress handle `11` and
egress handle `12`, and attaching fails for `C` and for no other pod.  The failed attach of
`C` is followed by both updates for `C` and by the whole block of `D`. -/
theorem attach_failure_does_not_shorten_loop_witness :
    (failedAttachCalls (reconcilePolicyEndpoint
        (exampleReconciler (Except.ok scenarioPolicy) [podA, podB, podC, podD] "192.168.1.5"
          ["C"])
        scenarioPolicy scenarioRequest (start attachedWorld)).2.calls).length = 1 ∧
      (reconcilePolicyEndpoint
        (exampleReconciler (Except.ok scenarioPolicy) [podA, podB, podC, podD] "192.168.1.5"
          ["C"])
        scenarioPolicy scenarioRequest (start attachedWorld)).2.calls =
      [Call.List "ns" none,
        Call.AttacheBPFProbes podA "nsP" true false none,
        Call.LoadIngress "nsP" (some 11),
        Call.UpdateEbpfMap 11 ["10.0.0.0/24"] none,
        Call.LoadEgress "nsP" (some 12),
        Call.UpdateEbpfMap 12 [] none,
        Call.AttacheBPFProbes podC "nsP" true false (some (GoError.other "attach failed")),
        Call.LoadIngress "nsP" (some 11),
        Call.UpdateEbpfMap 11 ["10.0.0.0/24"] none,
        Call.LoadEgress "nsP" (some 12),
        Call.UpdateEbpfMap 12 [] none,
        Call.AttacheBPFProbes podD "nsP" true false none,
        Call.LoadIngress "nsP" (some 11),
        Call.UpdateEbpfMap 11 ["10.0.0.0/24"] none,
        Call.LoadEgress "nsP" (some 12),
        Call.UpdateEbpfMap 12 [] none] :=
  ⟨by decide,
    (attach_failure_does_not_shorten_loop
      (exampleReconciler (Except.ok scenarioPolicy) [podA, podB, podC, podD] "192.168.1.5"
        ["C"])
      scenarioPolicy scenarioRequest attachedWorld (by decide)).2.2.trans (by decide)⟩

/-! ## The scenario -/

/-- C8, as amended: in the scenario, for every world and every behaviour of the eBPF client,
only `A` gets an attach call, with ingress true and egress false; the ingress handle found
after the attach, if any, gets an update with `["10.0.0.0/24"]`; the egress handle found after
that, if any, gets an update with the empty list; there is no other update, so without an
egress handle no egress update is made. -/
theorem scenario_calls {Pgm κ : Type} (r : PolicyEndpointsReconciler Pgm κ) (w : World Pgm κ)
    (hnode : r.nodeIP = "192.168.1.5")
    (hlist : (r.K8sClient.List "ns" w).1 = [podA, podB]) :
    let calls := (reconcilePolicyEndpoint r scenarioPolicy scenarioRequest (start w)).2.calls
    let attached := (r.ebpfClient.AttacheBPFProbes podA "nsP" true false w).2
    let ingressValue := Load attached.policyEndpointIngressMap "nsP"
    let updated :=
      match ingressValue with
      | some pgm => (r.ebpfClient.UpdateEbpfMap pgm ["10.0.0.0/24"] attached).2
      | none => attached
    let egressValue := Load updated.policyEndpointEgressMap "nsP"
    attachCalls calls = [(podA, "nsP", true, false)] ∧
      updateCalls calls =
        (match ingressValue with
          | some pgm => [(pgm, ["10.0.0.0/24"])]
          | none => []) ++
        (match egressValue with
          | some pgm => [(pgm, [])]
          | none => []) := by
  have hderive : deriveIngressAndEgressCIDRs scenarioPolicy = (["10.0.0.0/24"], [], none) := by
    decide
  have hident : policyEndpointIdentifier scenarioRequest = "nsP" := by decide
  have hns : scenarioRequest.NamespacedName.Namespace = "ns" := rfl
  have hA : podA.Status.HostIP = r.nodeIP := by rw [hnode]; decide
  have hB : ¬ podB.Status.HostIP = r.nodeIP := by rw [hnode]; decide
  have htrue : (if (["10.0.0.0/24"] : List String).length > 0 then true else false) = true := by
    decide
  have hfalse : (if ([] : List String).length > 0 then true else false) = false := by decide
  simp only [reconcilePolicyEndpoint, hderive, hns, start, hlist, List.foldl_cons,
    List.foldl_nil, reconcilePod, hA, hB, if_true, if_false, hident, htrue, hfalse]
  generalize r.ebpfClient.AttacheBPFProbes podA "nsP" true false w = res
  cases hi : Load res.2.policyEndpointIngressMap "nsP" with
  | none =>
    cases he : Load res.2.policyEndpointEgressMap "nsP" with
    | none => simp [updateEgress, updateIngress, hident, hi, he, attachCalls, updateCalls]
    | some pgm => simp [updateEgress, updateIngress, hident, hi, he, attachCalls, updateCalls]
  | some pgm =>
    cases he : Load (r.ebpfClient.UpdateEbpfMap pgm ["10.0.0.0/24"] res.2).2.policyEndpointEgressMap
        "nsP" with
    | none => simp [updateEgress, updateIngress, hident, hi, he, attachCalls, updateCalls]
    | some pgm2 => simp [updateEgress, updateIngress, hident, hi, he, attachCalls, updateCalls]

/-- C8, witness: the scenario on a node where `nsP` has an ingress handle and no egress
handle. -/
theorem scenario_calls_witness :
    attachCalls (reconcilePolicyEndpoint
        (exampleReconciler (Except.ok scenarioPolicy) [podA, podB] "192.168.1.5" [])
        scenarioPolicy scenarioRequest (start ingressOnlyWorld)).2.calls =
        [(podA, "nsP", true, false)] ∧
      updateCalls (reconcilePolicyEndpoint
        (exampleReconciler (Except.ok scenarioPolicy) [podA, podB] "192.168.1.5" [])
        scenarioPolicy scenarioRequest (start ingressOnlyWorld)).2.calls =
        [(11, ["10.0.0.0/24"])] :=
  scenario_calls (exampleReconciler (Except.ok scenarioPolicy) [podA, podB] "192.168.1.5" [])
    ingressOnlyWorld rfl rfl

/-- C8, counterexample: in the scenario, on a node where `nsP` has an egress handle, the egress
handle gets an `UpdateEbpfMap` call, with the empty list. -/
theorem scenario_egress_update_is_made :
    (reconcilePolicyEndpoint
        (exampleReconciler (Except.ok scenarioPolicy) [podA, podB] "192.168.1.5" [])
        scenarioPolicy scenarioRequest (start attachedWorld)).2.calls =
      [Call.List "ns" none,
        Call.AttacheBPFProbes podA "nsP" true false none,
        Call.LoadIngress "nsP" (some 11),
        Call.UpdateEbpfMap 11 ["10.0.0.0/24"] none,
        Call.LoadEgress "nsP" (some 12),
        Call.UpdateEbpfMap 12 [] none] := by
  decide

/-! ## The outcome reported to the dispatcher -/

theorem reconcilePolicyEndpoint_error {Pgm κ : Type} (r : PolicyEndpointsReconciler Pgm κ)
    (policyEndpoint : PolicyEndpoints) (req : Request) (st : Exec Pgm κ) :
    (reconcilePolicyEndpoint r policyEndpoint req st).1 = none := rfl

/-- C5: `Reconcile` always returns a nil error; its result asks for a requeue when `Get` failed
with an error that is not a not-found error, and is the empty result in every other case,
whatever `List`, `AttacheBPFProbes` and `UpdateEbpfMap` return. -/
theorem Reconcile_requeue_iff_fetch_failed {Pgm κ : Type} (r : PolicyEndpointsReconciler Pgm κ)
    (req : Request) (st : Exec Pgm κ) :
    (Reconcile r req st).2.1 = none ∧
      (Reconcile r req st).1 =
        (match r.K8sClient.Get req.NamespacedName st.world with
          | Except.error (GoError.other _) => ⟨true, 0⟩
          | _ => Result.empty) ∧
      ((Reconcile r req st).1.Requeue = true ↔
        ∃ msg, r.K8sClient.Get req.NamespacedName st.world =
          Except.error (GoError.other msg)) := by
  unfold Reconcile reconcile
  cases hget : r.K8sClient.Get req.NamespacedName st.world with
  | error err =>
    cases err with
    | notFound msg => simp [IgnoreNotFound, Result.empty]
    | other msg => simp [IgnoreNotFound]
  | ok policyEndpoint =>
    simp [reconcilePolicyEndpoint_error, Result.empty]

/-- C6: when `Get` answers not-found, `Reconcile` returns the empty result and a nil error,
leaves the world as it was, and its only call is that `Get`: no `List`, no
`AttacheBPFProbes`, no `UpdateEbpfMap`. -/
theorem Reconcile_not_found {Pgm κ : Type} (r : PolicyEndpointsReconciler Pgm κ)
    (req : Request) (w : World Pgm κ) (msg : String)
    (hget : r.K8sClient.Get req.NamespacedName w = Except.error (GoError.notFound msg)) :
    (Reconcile r req (start w)).1 = Result.empty ∧
      (Reconcile r req (start w)).2.1 = none ∧
      (Reconcile r req (start w)).2.2.world = w ∧
      (Reconcile r req (start w)).2.2.calls =
        [Call.Get req.NamespacedName (some (GoError.notFound msg))] ∧
      listCalls (Reconcile r req (start w)).2.2.calls = [] ∧
      attachCalls (Reconcile r req (start w)).2.2.calls = [] ∧
      updateCalls (Reconcile r req (start w)).2.2.calls = [] := by
  simp [Reconcile, reconcile, start, hget, IgnoreNotFound, listCalls, attachCalls, updateCalls]

/-- C6, witness: the object is gone while pod `A` sits on the node with both handles in the
index. -/
theorem Reconcile_not_found_witness :
    (Reconcile (exampleReconciler (Except.error (GoError.notFound "not found")) [podA, podB]
        "192.168.1.5" []) scenarioRequest (start attachedWorld)).1 = Result.empty ∧
      (Reconcile (exampleReconciler (Except.error (GoError.notFound "not found")) [podA, podB]
        "192.168.1.5" []) scenarioRequest (start attachedWorld)).2.1 = none ∧
      (Reconcile (exampleReconciler (Except.error (GoError.notFound "not found")) [podA, podB]
        "192.168.1.5" []) scenarioRequest (start attachedWorld)).2.2.world = attachedWorld ∧
      (Reconcile (exampleReconciler (Except.error (GoError.notFound "not found")) [podA, podB]
        "192.168.1.5" []) scenarioRequest (start attachedWorld)).2.2.calls =
        [Call.Get scenarioRequest.NamespacedName (some (GoError.notFound "not found"))] ∧
      listCalls (Reconcile (exampleReconciler (Except.error (GoError.notFound "not found"))
        [podA, podB] "192.168.1.5" []) scenarioRequest (start attachedWorld)).2.2.calls = [] ∧
      attachCalls (Reconcile (exampleReconciler (Except.error (GoError.notFound "not found"))
        [podA, podB] "192.168.1.5" []) scenarioRequest (start attachedWorld)).2.2.calls = [] ∧
      updateCalls (Reconcile (exampleReconciler (Except.error (GoError.notFound "not found"))
        [podA, podB] "192.168.1.5" []) scenarioRequest (start attachedWorld)).2.2.calls = [] :=
  Reconcile_not_found
    (exampleReconciler (Except.error (GoError.notFound "not found")) [podA, podB]
      "192.168.1.5" [])
    scenarioRequest attachedWorld "not found" rfl

/-! ## Running twice -/

/-- The first invocation on the fresh counting world: the attach fails, both updates are
made, and three calls have been counted. -/
theorem counting_first_run :
    (Reconcile countingReconciler scenarioRequest (start freshCountingWorld)).2.2.calls =
      [Call.Get ⟨"ns", "P"⟩ none,
        Call.List "ns" none,
        Call.AttacheBPFProbes podA "nsP" true false (some (GoError.other "not ready")),
        Call.LoadIngress "nsP" (some 11),
        Call.UpdateEbpfMap 11 ["10.0.0.0/24"] none,
        Call.LoadEgress "nsP" (some 12),
        Call.UpdateEbpfMap 12 [] none] ∧
      (Reconcile countingReconciler scenarioRequest (start freshCountingWorld)).2.2.world.outside
        = 3 := by
  decide

end Controllers
